import Mathlib

/-
  Verification development for the ComplementNB estimator
  (src/river/naive_bayes/complement.py) and the creme-to-sklearn batch
  adapters (src/creme/compat/creme_to_sklearn.py).

  Python dicts and Counters are modelled as insertion-ordered association
  lists with rational values; feature and class labels are natural numbers.
  The natural logarithm is carried as an abstract parameter `lg : ℚ → ℚ`,
  since every property compared here applies the same logarithm to the
  same rational arguments on both sides.
-/

namespace RiverSpec

/-- A Python `collections.Counter` (or plain numeric dict): an
insertion-ordered association list from keys to rational counts. -/
abbrev CMap := List (Nat × ℚ)

/-- `Counter.__getitem__`: the stored count, `0` for a missing key.
`Counter.__missing__` returns `0` without inserting the key. -/
def cGet : CMap → Nat → ℚ
  | [], _ => 0
  | (k', v) :: t, k => if k' = k then v else cGet t k

/-- `Counter.update({k: v})`: add `v` to the count of `k`, appending the
key at the end when it is new (even when `v = 0`). -/
def cAdd : CMap → Nat → ℚ → CMap
  | [], k, v => [(k, v)]
  | (k', v') :: t, k, v => if k' = k then (k', v' + v) :: t else (k', v') :: cAdd t k v

/-- Plain `dict` assignment `d[k] = v` (also `dict.update` on one key):
replace the value of `k`, appending the key at the end when it is new. -/
def dSet : CMap → Nat → ℚ → CMap
  | [], k, v => [(k, v)]
  | (k', v') :: t, k, v => if k' = k then (k', v) :: t else (k', v') :: dSet t k v

/-- One value of `ComplementNB.feature_counts`: per-class counts for one
feature.  `counterTag` records the Python runtime type of the inner
mapping: `true` for a `collections.Counter` (created by the
`defaultdict` factory in `learn_one`), `false` for the plain `dict`
that `learn_many` assigns via `dict.update`.  The two types react
differently to a later `.update({y: frequency})` call. -/
structure Inner where
  counterTag : Bool
  entries : CMap
  deriving DecidableEq

/-- `feature_counts`: feature key to per-class counts. -/
abbrev FMap := List (Nat × Inner)

/-- `feature_counts.get(f, {})` followed by `.get(c, 0.0)` — both reads
use defaults and insert nothing. -/
def fLookup : FMap → Nat → Option Inner
  | [], _ => none
  | (k', i) :: t, k => if k' = k then some i else fLookup t k

/-- `.get(c, 0.0)` on an inner mapping. -/
def innerGet (i : Inner) (c : Nat) : ℚ :=
  cGet i.entries c

/-- `feature_counts.get(f, {}).get(c, 0.0)`. -/
def fcGetD (m : FMap) (f c : Nat) : ℚ :=
  match fLookup m f with
  | some i => innerGet i c
  | none => 0

/-- `self.feature_counts[f].update({y: frequency})` from `learn_one`:
`defaultdict` inserts an empty `Counter` for a new `f`, then `.update`
adds on a `Counter` but replaces on a plain `dict` (the type
`learn_many` leaves behind). -/
def bumpInner (i : Inner) (y : Nat) (v : ℚ) : Inner :=
  if i.counterTag then ⟨true, cAdd i.entries y v⟩ else ⟨false, dSet i.entries y v⟩

/-- The `feature_counts` update one `(f, frequency)` pair of `learn_one`
performs. -/
def fBump : FMap → Nat → Nat → ℚ → FMap
  | [], f, y, v => [(f, ⟨true, cAdd [] y v⟩)]
  | (f', i) :: t, f, y, v =>
    if f' = f then (f', bumpInner i y v) :: t else (f', i) :: fBump t f y v

/-- `dict.update` on `feature_counts` with one key from
`(agg.T).to_dict(orient="index")`: the whole inner mapping is REPLACED
by a plain dict (not merged). -/
def fReplace : FMap → Nat → Inner → FMap
  | [], f, i => [(f, i)]
  | (f', i') :: t, f, i =>
    if f' = f then (f', i) :: t else (f', i') :: fReplace t f i

/-- The four running statistics of `ComplementNB`. -/
structure ComplementNB where
  class_counts : CMap
  feature_counts : FMap
  feature_totals : CMap
  class_totals : CMap
  deriving DecidableEq

/-- `ComplementNB.__init__`: all four maps empty. -/
def ComplementNB.initial : ComplementNB := ⟨[], [], [], []⟩

/-- `ComplementNB.learn_one(x, y)`: bump `class_counts[y]` by one, then
for each `(f, frequency)` of `x` add `frequency` into
`feature_counts[f][y]`, `feature_totals[f]` and `class_totals[y]`. -/
def learn_one (st : ComplementNB) (x : List (Nat × ℚ)) (y : Nat) : ComplementNB :=
  let st1 := { st with class_counts := cAdd st.class_counts y 1 }
  x.foldl (fun s fv =>
    { s with
      feature_counts := fBump s.feature_counts fv.1 y fv.2
      feature_totals := cAdd s.feature_totals fv.1 fv.2
      class_totals := cAdd s.class_totals y fv.2 }) st1

/-- Helper for `firstUniq`: keep the elements not seen before. -/
def firstUniqAux {α : Type} [DecidableEq α] : List α → List α → List α
  | [], _ => []
  | a :: t, seen =>
    if a ∈ seen then firstUniqAux t seen else a :: firstUniqAux t (a :: seen)

/-- The labels of `y` in order of first appearance (the distinct group
keys of the batch). -/
def firstUniq {α : Type} [DecidableEq α] (l : List α) : List α := firstUniqAux l []

/-- Pointwise sum of two equal-length numeric rows. -/
def vecAdd (a b : List ℚ) : List ℚ := List.zipWith (· + ·) a b

/-- Modelled from the spec: `base.Groupby(keys=y).apply(np.sum, X.values)`
(file river/naive_bayes/base.py is not under src/).  Per the spec's
words, "group rows by label, sum each feature column within each
group"; the result has one row of per-column sums for each distinct
label of `y`. -/
def groupSum (ncols : Nat) (y : List Nat) (rows : List (List ℚ)) : List (Nat × List ℚ) :=
  (firstUniq y).map (fun lab =>
    (lab, ((y.zip rows).filter (fun p => p.1 = lab)).foldl
      (fun acc p => vecAdd acc p.2) (List.replicate ncols 0)))

/-- Entry `j` of a row, `0` past the end. -/
def colOf (v : List ℚ) (j : Nat) : ℚ := v.getD j 0

/-- `ComplementNB.learn_many(X, y)` for a table with column keys `cols`
and rows `rows` (each of length `cols.length`), labels `y` aligned with
`rows`:
* `feature_counts.update((agg.T).to_dict(orient="index"))` — a plain
  `dict.update` that replaces each touched feature's inner mapping by a
  plain dict of the batch's per-class column sums;
* `feature_totals.update(X.sum(axis="rows").to_dict())` — `Counter`
  update, adds each column's total;
* `class_counts.update(y.value_counts().to_dict())` — adds each label's
  number of rows;
* `class_totals.update(agg.sum(axis="columns").to_dict())` — adds each
  label's total over all columns. -/
def learn_many (st : ComplementNB) (cols : List Nat) (rows : List (List ℚ))
    (y : List Nat) : ComplementNB :=
  let agg := groupSum cols.length y rows
  let fc := cols.enum.foldl (fun m ji =>
    fReplace m ji.2 ⟨false, agg.map (fun p => (p.1, colOf p.2 ji.1))⟩) st.feature_counts
  let ft := cols.enum.foldl (fun m ji =>
    cAdd m ji.2 ((rows.map (fun r => colOf r ji.1)).sum)) st.feature_totals
  let cc := (firstUniq y).foldl (fun m lab => cAdd m lab (y.count lab)) st.class_counts
  let ct := agg.foldl (fun m p => cAdd m p.1 p.2.sum) st.class_totals
  { class_counts := cc, feature_counts := fc, feature_totals := ft, class_totals := ct }

/-- `ComplementNB.p_class(c)`: `class_counts[c] / sum(class_counts.values())`.
The division is Python's on exact counts: when the total is zero (no
sample ever learned) it raises `ZeroDivisionError`, modelled as `none`. -/
def p_class (st : ComplementNB) (c : Nat) : Option ℚ :=
  let total := (st.class_counts.map (fun p => p.2)).sum
  if total = 0 then none else some (cGet st.class_counts c / total)

/-- The summand of `joint_log_likelihood` for class `c` and query pair
`(f, frequency)`, with the natural logarithm abstracted as `lg`. -/
def jllTerm (lg : ℚ → ℚ) (st : ComplementNB) (c : Nat) (fv : Nat × ℚ) : ℚ :=
  fv.2 * -(lg ((cGet st.feature_totals fv.1 - fcGetD st.feature_counts fv.1 c + 1)
    / (cGet st.class_totals c + (st.feature_counts.length : ℚ))))

/-- The per-class sum of `joint_log_likelihood`. -/
def jllVal (lg : ℚ → ℚ) (st : ComplementNB) (x : List (Nat × ℚ)) (c : Nat) : ℚ :=
  (x.map (jllTerm lg st c)).sum

/-- `ComplementNB.joint_log_likelihood(x)`: one entry per class of
`class_counts`, each the sum over `x.items()` of
`frequency * -log((feature_totals[f] - feature_counts.get(f, {}).get(c, 0.0) + 1)
/ (class_totals[c] + 1 * len(feature_counts)))`. -/
def joint_log_likelihood (lg : ℚ → ℚ) (st : ComplementNB)
    (x : List (Nat × ℚ)) : List (Nat × ℚ) :=
  st.class_counts.map (fun p => (p.1, jllVal lg st x p.1))

/- Spec-side formula for C3, written from the claim's words with its own
lookup spelling: `feature_totals[f]` and `class_totals[c]` as plain
lookups defaulting to `0`, `feature_counts[f].get(c, 0)` likewise, and
`number_of_distinct_features_observed` as the number of distinct
feature keys observed in training. -/

/-- A map read defaulting to `0`, as the claim's formula uses it. -/
def specLookup (m : CMap) (k : Nat) : ℚ := (m.lookup k).getD 0

/-- The claim's `feature_counts[f].get(c, 0)` with both levels
defaulting. -/
def specFc (m : FMap) (f c : Nat) : ℚ :=
  ((m.lookup f).map (fun i => (i.entries.lookup c).getD 0)).getD 0

/-- The claim's `number_of_distinct_features_observed`. -/
def specNumFeat (st : ComplementNB) : ℚ :=
  (((st.feature_counts.map (fun p => p.1)).dedup).length : ℚ)

/-- The claim's `complement_rate` for feature `f` and class `c`. -/
def specRate (st : ComplementNB) (f c : Nat) : ℚ :=
  (specLookup st.feature_totals f - specFc st.feature_counts f c + 1)
    / (specLookup st.class_totals c + specNumFeat st)

/-- C3's stated result: for every class observed so far, the sum over
`(f, frequency)` in `x` of `frequency * (-log complement_rate)`. -/
def specJll (lg : ℚ → ℚ) (st : ComplementNB) (x : List (Nat × ℚ)) : List (Nat × ℚ) :=
  st.class_counts.map (fun p =>
    (p.1, (x.map (fun fv => fv.2 * -(lg (specRate st fv.1 p.1)))).sum))

lemma cGet_eq_lookup (m : CMap) (k : Nat) : cGet m k = (m.lookup k).getD 0 := by
  induction m with
  | nil => rfl
  | cons p t ih =>
    obtain ⟨k', v⟩ := p
    by_cases h : k' = k
    · subst h
      simp [cGet, List.lookup]
    · have hb : (k == k') = false := by
        simp [Ne.symm h]
      simp [cGet, List.lookup, h, hb, ih]

lemma fLookup_eq_lookup (m : FMap) (k : Nat) : fLookup m k = m.lookup k := by
  induction m with
  | nil => rfl
  | cons p t ih =>
    obtain ⟨k', v⟩ := p
    by_cases h : k' = k
    · subst h
      simp [fLookup, List.lookup]
    · have hb : (k == k') = false := by
        simp [Ne.symm h]
      simp [fLookup, List.lookup, h, hb, ih]

lemma fcGetD_eq_specFc (m : FMap) (f c : Nat) : fcGetD m f c = specFc m f c := by
  unfold fcGetD specFc innerGet
  rw [fLookup_eq_lookup]
  cases m.lookup f with
  | none => rfl
  | some i => simp [cGet_eq_lookup]

/-- C1: the statistics after mixing `learn_one` and `learn_many` are
claimed to equal the pure one-by-one replay; the code diverges on
`feature_counts`, whose inner per-class counters `learn_many` replaces
(plain `dict.update`) instead of adding.  Feeding `({feature 0: 1},
class 0)` once via `learn_one` and once more via a one-row `learn_many`
leaves `feature_counts[0][0] = 1`, while the one-by-one replay leaves
`2`. -/
theorem C1_learn_many_replaces_feature_counts :
    fcGetD (learn_many (learn_one ComplementNB.initial [(0, 1)] 0)
        [0] [[1]] [0]).feature_counts 0 0 = 1 ∧
    fcGetD (learn_one (learn_one ComplementNB.initial [(0, 1)] 0)
        [(0, 1)] 0).feature_counts 0 0 = 2 := by
  constructor <;>
    norm_num [fcGetD, learn_many, learn_one, groupSum, firstUniq, firstUniqAux,
      vecAdd, colOf, fReplace, fBump, bumpInner, cAdd, dSet, fLookup, innerGet,
      cGet, ComplementNB.initial, List.enum]

/-- C2: after `learn_one` of `({feature 0: 1}, class 0)` followed by
`learn_many` of the same single row, `class_totals[0] = 2` while the
sum of `feature_counts[f][0]` over observed features is `1`: the
claimed invariant fails on the code. -/
theorem C2_class_totals_invariant_fails :
    cGet (learn_many (learn_one ComplementNB.initial [(0, 1)] 0)
        [0] [[1]] [0]).class_totals 0 = 2 ∧
    (((learn_many (learn_one ComplementNB.initial [(0, 1)] 0)
        [0] [[1]] [0]).feature_counts.map (fun p => innerGet p.2 0)).sum) = 1 := by
  constructor <;>
    norm_num [learn_many, learn_one, groupSum, firstUniq, firstUniqAux,
      vecAdd, colOf, fReplace, fBump, bumpInner, cAdd, dSet, fLookup, innerGet,
      cGet, ComplementNB.initial, List.enum]

/-- C3: `joint_log_likelihood(x)` returns, for every class observed so
far, the sum over `(f, frequency)` in `x` of `frequency *
(-log((feature_totals[f] - feature_counts[f].get(c, 0) + 1) /
(class_totals[c] + number_of_distinct_features_observed)))`, features
never observed in training contributing through the same formula with
zero-defaulting lookups.  Stated for maps with no duplicated feature
key (a Python dict invariant) and an arbitrary logarithm `lg`. -/
theorem C3_joint_log_likelihood_formula (lg : ℚ → ℚ) (st : ComplementNB)
    (x : List (Nat × ℚ)) (hfc : (st.feature_counts.map (fun p => p.1)).Nodup) :
    joint_log_likelihood lg st x = specJll lg st x := by
  unfold joint_log_likelihood specJll
  apply List.map_congr_left
  intro p _
  have hterm : ∀ fv : Nat × ℚ, jllTerm lg st p.1 fv
      = fv.2 * -(lg (specRate st fv.1 p.1)) := by
    intro fv
    unfold jllTerm specRate specNumFeat
    rw [cGet_eq_lookup, cGet_eq_lookup, fcGetD_eq_specFc, hfc.dedup,
      List.length_map]
    rfl
  simp only [jllVal]
  exact congrArg (Prod.mk p.1)
    (congrArg List.sum (List.map_congr_left (fun fv _ => hterm fv)))

/-- C3 witness: a one-sample state queried with one trained and one
never-trained feature. -/
theorem C3_joint_log_likelihood_formula_witness :
    joint_log_likelihood (fun q => q)
        ⟨[(0, 1)], [(0, ⟨true, [(0, 1)]⟩)], [(0, 1)], [(0, 1)]⟩ [(0, 1), (7, 2)]
      = specJll (fun q => q)
        ⟨[(0, 1)], [(0, ⟨true, [(0, 1)]⟩)], [(0, 1)], [(0, 1)]⟩
        [(0, 1), (7, 2)] :=
  C3_joint_log_likelihood_formula (fun q => q)
    ⟨[(0, 1)], [(0, ⟨true, [(0, 1)]⟩)], [(0, 1)], [(0, 1)]⟩ [(0, 1), (7, 2)]
    (by simp)

/-- C5 counterexample: on a freshly constructed `ComplementNB` no sample
has been learned, `sum(class_counts.values())` is `0`, and
`p_class` raises `ZeroDivisionError` (modelled `none`) instead of
returning `0.0`. -/
theorem C5_p_class_empty_state_raises :
    p_class ComplementNB.initial 0 = none := by
  simp [p_class, ComplementNB.initial]

/-- C5 amended: for a class absent from `class_counts`, `p_class`
returns exactly `0` and does not fail, provided at least one sample has
been learned (total class count nonzero). -/
theorem C5_p_class_unseen_class_zero (st : ComplementNB) (c : Nat)
    (habs : st.class_counts.lookup c = none)
    (hpos : (st.class_counts.map (fun p => p.2)).sum ≠ 0) :
    p_class st c = some 0 := by
  unfold p_class
  rw [if_neg hpos, cGet_eq_lookup, habs]
  simp

/-- C5 witness: a state with one sample of class `0`; querying class `5`
returns `0`. -/
theorem C5_p_class_unseen_class_zero_witness :
    p_class ⟨[(0, 1)], [], [], []⟩ 5 = some 0 :=
  C5_p_class_unseen_class_zero ⟨[(0, 1)], [], [], []⟩ 5 (by rfl) (by norm_num)

/- C10: the read-only operations threaded through explicit state.  Each
mapping read is a primitive returning the value alongside the map it
leaves behind, per Python semantics: `Counter.__getitem__` returns `0`
for a missing key without storing it (`Counter.__missing__`), and
`dict.get`/`in` insert nothing.  A `defaultdict.__getitem__`, by
contrast, would insert — the operations below never use it. -/

/-- `Counter.__getitem__`: value and the map afterwards (unchanged). -/
def counterRead (m : CMap) (k : Nat) : ℚ × CMap := (cGet m k, m)

/-- `dict.get(f, default)` on `feature_counts`: no insertion. -/
def dictRead (m : FMap) (f : Nat) : Option Inner × FMap := (fLookup m f, m)

/-- `f in feature_counts`: containment test, no insertion. -/
def containsRead (m : FMap) (f : Nat) : Bool × FMap := ((fLookup m f).isSome, m)

/-- `p_class` with its single `class_counts[c]` read threaded. -/
def pClassSt (st : ComplementNB) (c : Nat) : Option ℚ × ComplementNB :=
  let r1 := counterRead st.class_counts c
  let total := (r1.2.map (fun p => p.2)).sum
  ((if total = 0 then none else some (r1.1 / total)),
   { st with class_counts := r1.2 })

/-- The inner sum of `joint_log_likelihood` for one class, each
`feature_totals[f]`, `feature_counts.get(f, {})` and `class_totals[c]`
read threaded through the state. -/
def jllTermsSt (lg : ℚ → ℚ) (c : Nat) :
    ComplementNB → List (Nat × ℚ) → ℚ × ComplementNB
  | st, [] => (0, st)
  | st, fv :: t =>
    let r1 := counterRead st.feature_totals fv.1
    let r2 := dictRead st.feature_counts fv.1
    let fcv := match r2.1 with | some i => innerGet i c | none => 0
    let r3 := counterRead st.class_totals c
    let st1 := { st with
      feature_totals := r1.2, feature_counts := r2.2, class_totals := r3.2 }
    let rest := jllTermsSt lg c st1 t
    (fv.2 * -(lg ((r1.1 - fcv + 1) / (r3.1 + (st1.feature_counts.length : ℚ))))
      + rest.1, rest.2)

/-- The outer comprehension of `joint_log_likelihood` over the classes
of `class_counts`. -/
def jllClassesSt (lg : ℚ → ℚ) (x : List (Nat × ℚ)) :
    ComplementNB → List Nat → List (Nat × ℚ) × ComplementNB
  | st, [] => ([], st)
  | st, c :: cs =>
    let r := jllTermsSt lg c st x
    let rest := jllClassesSt lg x r.2 cs
    ((c, r.1) :: rest.1, rest.2)

/-- `joint_log_likelihood` with every mapping read threaded. -/
def jllSt (lg : ℚ → ℚ) (st : ComplementNB) (x : List (Nat × ℚ)) :
    List (Nat × ℚ) × ComplementNB :=
  jllClassesSt lg x st (st.class_counts.map (fun p => p.1))

/-- The known/unknown column split of `joint_log_likelihood_many`, its
`x in self.feature_counts` tests threaded. -/
def knownSplitSt : FMap → List Nat → (List Nat × List Nat) × FMap
  | m, [] => (([], []), m)
  | m, f :: t =>
    let r := containsRead m f
    let rest := knownSplitSt r.2 t
    ((if r.1 then (f :: rest.1.1, rest.1.2) else (rest.1.1, f :: rest.1.2)), rest.2)

/-- The divider comprehension of `joint_log_likelihood_many`, its
`class_totals[c]` reads threaded (`nfc` is `1 * len(feature_counts)`). -/
def dividerSt (nfc : ℚ) : CMap → List Nat → List ℚ × CMap
  | m, [] => ([], m)
  | m, c :: cs =>
    let r := counterRead m c
    let rest := dividerSt nfc r.2 cs
    ((r.1 + nfc) :: rest.1, rest.2)

lemma jllTermsSt_state (lg : ℚ → ℚ) (c : Nat) (st : ComplementNB)
    (x : List (Nat × ℚ)) : (jllTermsSt lg c st x).2 = st := by
  induction x generalizing st with
  | nil => rfl
  | cons fv t ih => simp [jllTermsSt, counterRead, dictRead, ih]

lemma jllClassesSt_state (lg : ℚ → ℚ) (x : List (Nat × ℚ))
    (st : ComplementNB) (cs : List Nat) : (jllClassesSt lg x st cs).2 = st := by
  induction cs generalizing st with
  | nil => rfl
  | cons c t ih => simp [jllClassesSt, jllTermsSt_state, ih]

lemma knownSplitSt_state (m : FMap) (l : List Nat) : (knownSplitSt m l).2 = m := by
  induction l generalizing m with
  | nil => rfl
  | cons f t ih => simp [knownSplitSt, containsRead, ih]

lemma dividerSt_state (nfc : ℚ) (m : CMap) (cs : List Nat) :
    (dividerSt nfc m cs).2 = m := by
  induction cs generalizing m with
  | nil => rfl
  | cons c t ih => simp [dividerSt, counterRead, ih]

/- The pure value computed by `joint_log_likelihood_many`.  pandas
details modelled: `sort_index()` orders an index ascending; a DataFrame
built from a dict-of-dicts indexes by the union of inner keys in first
appearance order; `X @ fwc.values.T` is a positional matrix product, so
row `X`'s `j`-th column multiplies the `j`-th column of `fwc`, whose
columns are ordered `known ++ unknown`.  A missing known column in
`feature_totals` or mismatched frame shapes raise in pandas/numpy,
modelled as `none`. -/

/-- Insertion of one key into an ascending list. -/
def insSorted {α : Type} [LinearOrder α] (a : α) : List α → List α
  | [] => [a]
  | b :: t => if a ≤ b then a :: b :: t else b :: insSorted a t

/-- Ascending sort (`sort_index()`). -/
def sortList {α : Type} [LinearOrder α] (l : List α) : List α := l.foldr insSorted []

/-- `cLookup`: a read of a counter map returning `none` for a missing
key (used to model pandas `KeyError` on column selection). -/
def cLookup : CMap → Nat → Option ℚ
  | [], _ => none
  | (k', v) :: t, k => if k' = k then some v else cLookup t k

/-- The columns of `X` present in `feature_counts`, in `X`'s order. -/
def knownCols (st : ComplementNB) (cols : List Nat) : List Nat :=
  cols.filter (fun f => (fLookup st.feature_counts f).isSome)

/-- The columns of `X` absent from `feature_counts`, in `X`'s order. -/
def unknownCols (st : ComplementNB) (cols : List Nat) : List Nat :=
  cols.filter (fun f => !(fLookup st.feature_counts f).isSome)

/-- The row index of `pd.DataFrame(feature_counts)` after
`sort_index()`: the distinct classes of the inner maps, ascending. -/
def fccOf (st : ComplementNB) : List Nat :=
  sortList (firstUniq
    ((st.feature_counts.map (fun p => p.2.entries.map (fun q => q.1))).flatten))

/-- The index of the divider frame after `sort_index()`: the classes of
`class_counts`, ascending. -/
def sccOf (st : ComplementNB) : List Nat :=
  sortList (firstUniq (st.class_counts.map (fun p => p.1)))

/-- `class_totals[c] + 1 * len(feature_counts)`. -/
def dividerVal (st : ComplementNB) (c : Nat) : ℚ :=
  cGet st.class_totals c + (st.feature_counts.length : ℚ)

/-- The one-row frame `f`: `feature_totals` over the known columns,
then `f[unknown] = 0`. -/
def fRowVal (st : ComplementNB) (f : Nat) : ℚ :=
  if (fLookup st.feature_counts f).isSome then cGet st.feature_totals f else 0

/-- `pd.DataFrame(feature_counts).fillna(0)` at class `ci`, column `f`;
`0` for the appended unknown columns. -/
def fwcRawVal (st : ComplementNB) (f ci : Nat) : ℚ :=
  match fLookup st.feature_counts f with
  | some i => innerGet i ci
  | none => 0

/-- An entry of `fwc = -log((-fwc + f + 1) / divider)`: the coefficient
for numerator class `ci` (row of the counts frame) and divider class
`di` (positionally aligned row of the divider frame). -/
def fwcVal (lg : ℚ → ℚ) (st : ComplementNB) (ci di f : Nat) : ℚ :=
  -(lg ((fRowVal st f - fwcRawVal st f ci + 1) / dividerVal st di))

/-- `ComplementNB.joint_log_likelihood_many(X)`: the output classes (the
sorted counts-frame index) and the matrix `X @ fwc.values.T`, computed
positionally: column `j` of `X` multiplies column `j` of `fwc`, whose
column order is `known ++ unknown`. -/
def jllMany (lg : ℚ → ℚ) (st : ComplementNB) (cols : List Nat)
    (rows : List (List ℚ)) : Option (List Nat × List (List ℚ)) :=
  let known := knownCols st cols
  let ordered := known ++ unknownCols st cols
  let fcc := fccOf st
  let scc := sccOf st
  if known.all (fun f => (cLookup st.feature_totals f).isSome)
      && (fcc.length == scc.length)
      && rows.all (fun r => r.length == cols.length) then
    some (fcc, rows.map (fun r =>
      (fcc.zip scc).map (fun cd =>
        ((r.zip ordered).map (fun vf => vf.1 * fwcVal lg st cd.1 cd.2 vf.2)).sum)))
  else none

/-- `joint_log_likelihood_many` with its Python-mapping reads threaded:
the `x in feature_counts` tests and the `class_totals[c]` reads of the
divider comprehension; the remaining arithmetic happens on pandas
copies of the maps and touches no Python mapping. -/
def jllManySt (lg : ℚ → ℚ) (st : ComplementNB) (cols : List Nat)
    (rows : List (List ℚ)) :
    Option (List Nat × List (List ℚ)) × ComplementNB :=
  let ks := knownSplitSt st.feature_counts cols
  let dv := dividerSt (st.feature_counts.length : ℚ) st.class_totals
    (st.class_counts.map (fun p => p.1))
  (jllMany lg st cols rows,
   { st with feature_counts := ks.2, class_totals := dv.2 })

/-- C10: `p_class`, `joint_log_likelihood` and
`joint_log_likelihood_many` leave all four statistics maps unchanged;
in particular a query touching a feature or class never seen in
training inserts no default entry, because every read the code performs
is a non-inserting one (`Counter.__getitem__`, `dict.get`, `in`). -/
theorem C10_read_only_operations_preserve_state (lg : ℚ → ℚ)
    (st : ComplementNB) (c : Nat) (x : List (Nat × ℚ)) (cols : List Nat)
    (rows : List (List ℚ)) :
    (pClassSt st c).2 = st ∧ (jllSt lg st x).2 = st ∧
      (jllManySt lg st cols rows).2 = st := by
  refine ⟨rfl, ?_, ?_⟩
  · exact jllClassesSt_state lg x st _
  · simp [jllManySt, knownSplitSt_state, dividerSt_state]

lemma mem_firstUniqAux {α : Type} [DecidableEq α] (a : α) :
    ∀ (l seen : List α), a ∈ firstUniqAux l seen ↔ a ∈ l ∧ a ∉ seen := by
  intro l
  induction l with
  | nil => intro seen; simp [firstUniqAux]
  | cons b t ih =>
    intro seen
    by_cases hb : b ∈ seen
    · rw [firstUniqAux, if_pos hb, ih]
      constructor
      · rintro ⟨h1, h2⟩
        exact ⟨List.mem_cons_of_mem _ h1, h2⟩
      · rintro ⟨h1, h2⟩
        rcases List.mem_cons.1 h1 with h | h
        · exact absurd (h ▸ hb) h2
        · exact ⟨h, h2⟩
    · rw [firstUniqAux, if_neg hb]
      by_cases hab : a = b
      · subst hab
        simp [hb]
      · rw [List.mem_cons, ih]
        simp [hab, List.mem_cons]

lemma mem_firstUniq {α : Type} [DecidableEq α] (a : α) (l : List α) :
    a ∈ firstUniq l ↔ a ∈ l := by
  rw [firstUniq, mem_firstUniqAux]
  simp

lemma mem_insSorted {α : Type} [LinearOrder α] (a b : α) (l : List α) :
    a ∈ insSorted b l ↔ a = b ∨ a ∈ l := by
  induction l with
  | nil => simp [insSorted]
  | cons c t ih =>
    rw [insSorted]
    by_cases h : b ≤ c
    · simp [h]
    · rw [if_neg h, List.mem_cons, ih, List.mem_cons]
      tauto

lemma mem_sortList {α : Type} [LinearOrder α] (a : α) (l : List α) :
    a ∈ sortList l ↔ a ∈ l := by
  induction l with
  | nil => simp [sortList]
  | cons b t ih =>
    rw [sortList, List.foldr_cons, mem_insSorted]
    rw [sortList] at ih
    rw [ih, List.mem_cons]

lemma lookup_map_pair (l : List (Nat × ℚ)) (g : Nat → ℚ) (c : Nat)
    (hc : c ∈ l.map (fun p => p.1)) :
    ((l.map (fun p => (p.1, g p.1))).lookup c) = some (g c) := by
  induction l with
  | nil => simp at hc
  | cons p t ih =>
    by_cases h : p.1 = c
    · subst h
      simp [List.lookup]
    · have hb : (c == p.1) = false := by simp [Ne.symm h]
      simp only [List.map_cons, List.lookup, hb]
      apply ih
      simp only [List.map_cons, List.mem_cons] at hc
      exact hc.resolve_left (fun hx => h hx.symm)

lemma cGet_eq_zero_of_not_key (m : CMap) (f : Nat)
    (h : f ∉ m.map (fun p => p.1)) : cGet m f = 0 := by
  induction m with
  | nil => rfl
  | cons p t ih =>
    simp only [List.map_cons, List.mem_cons, not_or] at h
    obtain ⟨p1, p2⟩ := p
    rw [cGet, if_neg (fun hx => h.1 hx.symm)]
    exact ih h.2

lemma ft_zero_of_unknown (st : ComplementNB)
    (hcov : st.feature_totals.all
      (fun p => (fLookup st.feature_counts p.1).isSome) = true)
    (f : Nat) (hf : fLookup st.feature_counts f = none) :
    cGet st.feature_totals f = 0 := by
  apply cGet_eq_zero_of_not_key
  intro hmem
  obtain ⟨p, hp, hp1⟩ := List.mem_map.1 hmem
  have := List.all_eq_true.1 hcov p hp
  rw [hp1, hf] at this
  simp at this

lemma coef_eq_jllTerm (lg : ℚ → ℚ) (st : ComplementNB) (c : Nat)
    (hcov : st.feature_totals.all
      (fun p => (fLookup st.feature_counts p.1).isSome) = true)
    (fv : Nat × ℚ) :
    fv.2 * fwcVal lg st c c fv.1 = jllTerm lg st c fv := by
  unfold fwcVal fRowVal fwcRawVal dividerVal jllTerm fcGetD
  cases hf : fLookup st.feature_counts fv.1 with
  | some i => simp [hf]
  | none => simp [hf, ft_zero_of_unknown st hcov fv.1 hf]

lemma sum_swap_zip (g : Nat → ℚ → ℚ) (r : List ℚ) (cl : List Nat) :
    ((r.zip cl).map (fun vf => g vf.2 vf.1)).sum
      = ((cl.zip r).map (fun fv => g fv.1 fv.2)).sum := by
  rw [← List.zip_swap r cl, List.map_map]
  rfl

lemma zip_self_map {α β : Type} (l : List α) (g : α × α → β) :
    (l.zip l).map g = l.map (fun a => g (a, a)) := by
  induction l with
  | nil => rfl
  | cons a t ih => simp [List.zip_cons_cons, ih]

lemma rowsum_eq_jllVal (lg : ℚ → ℚ) (st : ComplementNB) (c : Nat)
    (hcov : st.feature_totals.all
      (fun p => (fLookup st.feature_counts p.1).isSome) = true)
    (r : List ℚ) (cols : List Nat) :
    ((r.zip cols).map (fun vf => vf.1 * fwcVal lg st c c vf.2)).sum
      = jllVal lg st (cols.zip r) c := by
  rw [jllVal, sum_swap_zip (fun f v => v * fwcVal lg st c c f) r cols]
  exact congrArg List.sum
    (List.map_congr_left (fun fv _ => coef_eq_jllTerm lg st c hcov fv))

lemma mem_sccOf (st : ComplementNB) (c : Nat) (hc : c ∈ sccOf st) :
    c ∈ st.class_counts.map (fun p => p.1) := by
  rw [sccOf, mem_sortList, mem_firstUniq] at hc
  exact hc

/-- C4 counterexample: a fitted state with one known feature `0`
(`feature_totals[0] = 3`, `feature_counts[0] = {0: 1, 1: 2}`,
`class_totals = {0: 1, 1: 2}`, one sample per class) queried with the
column order `[1, 0]` — the unknown column `1` first.  The batch path
gives `-5/2` for class `0` on the row `[1, 2]`, while row-wise
`joint_log_likelihood` on the same row gives `-7/2` (logarithm
instantiated as the identity): `joint_log_likelihood_many` misaligns
its coefficients when an unknown column precedes a known one. -/
theorem C4_jll_many_misaligns_unknown_first :
    jllMany (fun q => q) ⟨[(0, 1), (1, 1)], [(0, ⟨true, [(0, 1), (1, 2)]⟩)],
        [(0, 3)], [(0, 1), (1, 2)]⟩ [1, 0] [[1, 2]]
      = some ([0, 1], [[-(5 / 2 : ℚ), -(4 / 3 : ℚ)]]) ∧
    joint_log_likelihood (fun q => q) ⟨[(0, 1), (1, 1)],
        [(0, ⟨true, [(0, 1), (1, 2)]⟩)], [(0, 3)], [(0, 1), (1, 2)]⟩
        [(1, 1), (0, 2)]
      = [(0, -(7 / 2 : ℚ)), (1, -(5 / 3 : ℚ))] := by
  constructor
  · norm_num [jllMany, knownCols, unknownCols, fccOf, sccOf, sortList, insSorted,
      firstUniq, firstUniqAux, fLookup, cLookup, fwcVal, fRowVal, fwcRawVal,
      dividerVal, innerGet, cGet, List.filter, List.zip, List.zipWith]
  · norm_num [joint_log_likelihood, jllVal, jllTerm, fcGetD, fLookup, innerGet,
      cGet]

/-- C4 amended: `joint_log_likelihood_many(X)` agrees with calling
`joint_log_likelihood` on each row of `X` and stacking the per-row
results by class, for every fitted state whose counts-frame classes
match the divider classes and whose `feature_totals` keys are all known
features, PROVIDED every known column of `X` precedes every unknown
column (in particular whenever `X` has no unknown column); the original
claim's "in any column order" fails, because the matrix product is
positional while the coefficient columns are reordered known-first. -/
theorem C4_jll_many_matches_rowwise (lg : ℚ → ℚ) (st : ComplementNB)
    (cols : List Nat) (rows : List (List ℚ))
    (hord : knownCols st cols ++ unknownCols st cols = cols)
    (hcls : fccOf st = sccOf st)
    (hk : (knownCols st cols).all
      (fun f => (cLookup st.feature_totals f).isSome) = true)
    (hcov : st.feature_totals.all
      (fun p => (fLookup st.feature_counts p.1).isSome) = true)
    (hrect : rows.all (fun r => r.length == cols.length) = true) :
    jllMany lg st cols rows = some (sccOf st, rows.map (fun r =>
      (sccOf st).map (fun c =>
        ((joint_log_likelihood lg st (cols.zip r)).lookup c).getD 0))) := by
  unfold jllMany
  simp only [hcls, hord, hk, hrect, beq_self_eq_true, Bool.and_self,
    Bool.and_true, Bool.true_and, if_true]
  refine congrArg some (congrArg (Prod.mk (sccOf st)) ?_)
  apply List.map_congr_left
  intro r _
  rw [zip_self_map]
  apply List.map_congr_left
  intro c hc
  rw [rowsum_eq_jllVal lg st c hcov r cols, joint_log_likelihood,
    lookup_map_pair st.class_counts (jllVal lg st (cols.zip r)) c
      (mem_sccOf st c hc)]
  rfl

/-- C4 witness for the amended theorem: the same fitted state queried
with the known column `0` first and the unknown column `1` second. -/
theorem C4_jll_many_matches_rowwise_witness :
    jllMany (fun q => q) ⟨[(0, 1), (1, 1)], [(0, ⟨true, [(0, 1), (1, 2)]⟩)],
        [(0, 3)], [(0, 1), (1, 2)]⟩ [0, 1] [[2, 1]]
      = some (sccOf ⟨[(0, 1), (1, 1)], [(0, ⟨true, [(0, 1), (1, 2)]⟩)],
          [(0, 3)], [(0, 1), (1, 2)]⟩,
        [[2, 1]].map (fun r =>
          (sccOf ⟨[(0, 1), (1, 1)], [(0, ⟨true, [(0, 1), (1, 2)]⟩)],
            [(0, 3)], [(0, 1), (1, 2)]⟩).map (fun c =>
            ((joint_log_likelihood (fun q => q) ⟨[(0, 1), (1, 1)],
              [(0, ⟨true, [(0, 1), (1, 2)]⟩)], [(0, 3)], [(0, 1), (1, 2)]⟩
              ([0, 1].zip r)).lookup c).getD 0))) :=
  C4_jll_many_matches_rowwise (fun q => q) _ [0, 1] [[2, 1]]
    (by rfl) (by rfl) (by rfl) (by rfl) (by rfl)

/- The creme-to-sklearn adapter layer
(src/creme/compat/creme_to_sklearn.py).  The wrapped incremental
estimator is an arbitrary type `M` with its single-sample methods
passed as functions.  Python object identity is modelled with an
explicit store of heap cells: the adapter's `self.estimator` holds the
caller's reference, `copy.deepcopy` allocates a fresh cell holding the
value, and `fit_one` mutates through `self.instance_`'s reference, so
whether learning leaks into the caller's object is the question of
which cell the loop writes. -/

/-- A numeric input row of the batch table `X`. -/
abbrev Row := List ℚ

/-- A heap of `M`-cells addressed by natural references. -/
structure Store (M : Type) where
  mem : Nat → M
  next : Nat

/-- Dereference. -/
def Store.get {M : Type} (s : Store M) (r : Nat) : M := s.mem r

/-- In-place mutation of one cell. -/
def Store.set {M : Type} (s : Store M) (r : Nat) (v : M) : Store M :=
  ⟨fun n => if n = r then v else s.mem n, s.next⟩

/-- `copy.deepcopy`: a fresh cell holding the copied value. -/
def Store.alloc {M : Type} (s : Store M) (v : M) : Nat × Store M :=
  (s.next, ⟨fun n => if n = s.next then v else s.mem n, s.next + 1⟩)

/-- The error kinds the adapters raise: validation failures from
`check_array`/`check_X_y`, the `Expected k features, got m` ValueError,
sklearn's NotFittedError, labels outside `classes_`, and the two
`_check_partial_fit_first_call` failures. -/
inductive SKErr where
  | validation : SKErr
  | badShape : SKErr
  | notFitted : SKErr
  | unknownLabel : SKErr
  | classesFirstCall : SKErr
  | classesChanged : SKErr
  deriving DecidableEq

/-- `X.shape[1]`. -/
def ncols (X : List Row) : Nat := (X.headD []).length

/-- `utils.check_array` with the adapters' parameters: a non-empty
two-dimensional table with at least one feature (rectangularity stands
in for the dtype coercion that rejects ragged input). -/
def checkArrayOk (X : List Row) : Bool :=
  match X with
  | [] => false
  | r :: t => (r.length != 0) && t.all (fun q => q.length == r.length)

/-- `utils.check_X_y`: `check_array` plus an aligned target column. -/
def checkXyOk (X : List Row) (y : List ℚ) : Bool :=
  checkArrayOk X && (y.length == X.length)

/-- The `hasattr(self, 'n_features_in_') and X.shape[1] != self.n_features_in_`
guard (true when the call may proceed). -/
def nFeatOk (o : Option Nat) (X : List Row) : Bool :=
  match o with
  | some n => ncols X == n
  | none => true

/-- `if not hasattr(self, 'instance_'): self.instance_ = copy.deepcopy(self.estimator)`:
the instance reference, existing or freshly deep-copied from the
template cell. -/
def ensureInstance {M : Type} (s : Store M) (est : Nat) (inst : Option Nat) :
    Nat × Store M :=
  match inst with
  | some r => (r, s)
  | none => s.alloc (s.get est)

/-- The store an adapter call leaves behind (`s` itself when the call
raised before reaching the fitting loop, as the code does). -/
def storeAfter {M R : Type} (e : Except SKErr (Store M × R)) (s : Store M) : Store M :=
  match e with
  | .ok p => p.1
  | .error _ => s

/-- The (store, adapter) pair of a successful call, a default otherwise. -/
def okOr {M R : Type} (e : Except SKErr (Store M × R)) (dflt : Store M × R) :
    Store M × R :=
  match e with
  | .ok p => p
  | .error _ => dflt

/-- `Creme2SKLRegressor`: the caller's estimator reference plus the
lazily created `instance_` and `n_features_in_`. -/
structure SKLRegressor where
  estimatorRef : Nat
  instanceRef : Option Nat
  nFeaturesIn : Option Nat

/-- `Creme2SKLRegressor._partial_fit`: validate, check the feature
count, deep-copy the template on first use, then `fit_one` per row. -/
def regPartialFit {M : Type} (fitOne : M → Row → ℚ → M) (s : Store M)
    (a : SKLRegressor) (X : List Row) (y : List ℚ) :
    Except SKErr (Store M × SKLRegressor) :=
  if checkXyOk X y then
    if nFeatOk a.nFeaturesIn X then
      let er := ensureInstance s a.estimatorRef a.instanceRef
      let final := (X.zip y).foldl (fun m p => fitOne m p.1 p.2) (er.2.get er.1)
      .ok (er.2.set er.1 final,
        { a with instanceRef := some er.1, nFeaturesIn := some (ncols X) })
    else .error .badShape
  else .error .validation

/-- `Creme2SKLRegressor.fit`: pop `instance_` and `n_features_in_`,
then one `_partial_fit` pass. -/
def regFit {M : Type} (fitOne : M → Row → ℚ → M) (s : Store M)
    (a : SKLRegressor) (X : List Row) (y : List ℚ) :
    Except SKErr (Store M × SKLRegressor) :=
  regPartialFit fitOne s { a with instanceRef := none, nFeaturesIn := none } X y

/-- `Creme2SKLRegressor.predict`: `check_is_fitted`, `check_array`, the
feature-count check, then `predict_one` per row. -/
def regPredict {M : Type} (predOne : M → Row → ℚ) (s : Store M)
    (a : SKLRegressor) (X : List Row) : Except SKErr (List ℚ) :=
  match a.instanceRef with
  | none => .error .notFitted
  | some r =>
    if checkArrayOk X then
      match a.nFeaturesIn with
      | some n =>
        if ncols X == n then .ok (X.map (predOne (s.get r)))
        else .error .badShape
      | none => .error .notFitted
    else .error .validation

/-- `utils.multiclass.unique_labels`: the distinct labels, ascending. -/
def uniqueLabels (y : List ℚ) : List ℚ := sortList (firstUniq y)

/-- `preprocessing.LabelEncoder().fit(classes_).transform`: each label
to its index in the sorted class list. -/
def labelTransform (cs : List ℚ) (y : List ℚ) : List ℚ :=
  y.map (fun v => ((cs.findIdx (fun c => decide (c = v)) : Nat) : ℚ))

/-- The target column the wrapped estimator sees: encoded through the
label codec for a binary-only estimator, unchanged for a
multiclass one. -/
def encY (isMulti : Bool) (cs : List ℚ) (y : List ℚ) : List ℚ :=
  if isMulti then y else labelTransform cs y

/-- `Creme2SKLClassifier` state: `classes_`, `label_encoder_` presence,
`instance_`, `n_features_in_`. -/
structure SKLClassifier where
  estimatorRef : Nat
  instanceRef : Option Nat
  nFeaturesIn : Option Nat
  classes : Option (List ℚ)
  labelEnc : Bool

/-- A freshly constructed classifier adapter over template `est`. -/
def clsFresh (est : Nat) : SKLClassifier := ⟨est, none, none, none, false⟩

/-- `utils.multiclass._check_partial_fit_first_call`: on the first call
`classes` is required and establishes `classes_`; later calls may omit
it but must not change it. -/
def checkFirstCall (a : SKLClassifier) (classes : Option (List ℚ)) :
    Except SKErr (List ℚ) :=
  match classes, a.classes with
  | none, none => .error .classesFirstCall
  | none, some cs => .ok cs
  | some cl, none => .ok (uniqueLabels cl)
  | some cl, some cs =>
    if uniqueLabels cl = cs then .ok cs else .error .classesChanged

/-- `Creme2SKLClassifier._partial_fit`: establish/check `classes_`,
validate, check the feature count, reject labels outside `classes_`,
deep-copy the template on first use, encode the targets for a
binary-only estimator, then `fit_one` per row.  (The more-than-two-
classes situation for a binary estimator is only a warning in the code
and alters no state.) -/
def clsPartialFit {M : Type} (fitOne : M → Row → ℚ → M) (isMulti : Bool)
    (s : Store M) (a : SKLClassifier) (X : List Row) (y : List ℚ)
    (classes : Option (List ℚ)) : Except SKErr (Store M × SKLClassifier) :=
  match checkFirstCall a classes with
  | .error e => .error e
  | .ok cs =>
    if checkXyOk X y then
      if nFeatOk a.nFeaturesIn X then
        if y.all (fun v => decide (v ∈ cs)) then
          let er := ensureInstance s a.estimatorRef a.instanceRef
          let final := (X.zip (encY isMulti cs y)).foldl
            (fun m p => fitOne m p.1 p.2) (er.2.get er.1)
          .ok (er.2.set er.1 final,
            { a with
                classes := some cs
                instanceRef := some er.1
                nFeaturesIn := some (ncols X)
                labelEnc := a.labelEnc || !isMulti })
        else .error .unknownLabel
      else .error .badShape
    else .error .validation

/-- `Creme2SKLClassifier.fit`: pop `classes_`, `instance_`,
`label_encoder_` and `n_features_in_`, derive the classes from `y`,
then one `_partial_fit` pass. -/
def clsFit {M : Type} (fitOne : M → Row → ℚ → M) (isMulti : Bool)
    (s : Store M) (a : SKLClassifier) (X : List Row) (y : List ℚ) :
    Except SKErr (Store M × SKLClassifier) :=
  clsPartialFit fitOne isMulti s
    { a with
        instanceRef := none
        nFeaturesIn := none
        classes := none
        labelEnc := false } X y (some (uniqueLabels y))

/-- `Creme2SKLClassifier.predict`: fitted/array/feature-count checks,
`predict_one` per row, then the label codec inverted when one was used
(`astype(int)` truncation modelled by the floor for the non-negative
encoder outputs). -/
def clsPredict {M : Type} (predOne : M → Row → ℚ) (s : Store M)
    (a : SKLClassifier) (X : List Row) : Except SKErr (List ℚ) :=
  match a.instanceRef with
  | none => .error .notFitted
  | some r =>
    if checkArrayOk X then
      match a.nFeaturesIn with
      | some n =>
        if ncols X == n then
          let preds := X.map (predOne (s.get r))
          .ok (if a.labelEnc then
              preds.map (fun v => (a.classes.getD []).getD (Int.toNat ⌊v⌋) 0)
            else preds)
        else .error .badShape
      | none => .error .notFitted
    else .error .validation

/-- `Creme2SKLTransformer` state. -/
structure SKLTransformer where
  estimatorRef : Nat
  instanceRef : Option Nat
  nFeaturesIn : Option Nat

/-- `Creme2SKLTransformer._partial_fit`: `check_array` when `y` is
absent, `check_X_y` otherwise; feature-count check; deep copy on first
use; then `fit_one(x, y_i)` for a `SupervisedTransformer` (`isSup`) and
`fit_one(x)` otherwise. -/
def traPartialFit {M : Type} (fitOneSup : M → Row → Option ℚ → M)
    (fitOneU : M → Row → M) (isSup : Bool) (s : Store M)
    (a : SKLTransformer) (X : List Row) (y : Option (List ℚ)) :
    Except SKErr (Store M × SKLTransformer) :=
  if (match y with
      | none => checkArrayOk X
      | some ys => checkXyOk X ys) then
    if nFeatOk a.nFeaturesIn X then
      let er := ensureInstance s a.estimatorRef a.instanceRef
      let yOpts : List (Option ℚ) :=
        match y with
        | none => List.replicate X.length none
        | some ys => ys.map some
      let final :=
        if isSup then
          (X.zip yOpts).foldl (fun m p => fitOneSup m p.1 p.2) (er.2.get er.1)
        else X.foldl fitOneU (er.2.get er.1)
      .ok (er.2.set er.1 final,
        { a with instanceRef := some er.1, nFeaturesIn := some (ncols X) })
    else .error .badShape
  else .error .validation

/-- `Creme2SKLTransformer.fit`: pop the adapter state, then one
`_partial_fit` pass. -/
def traFit {M : Type} (fitOneSup : M → Row → Option ℚ → M)
    (fitOneU : M → Row → M) (isSup : Bool) (s : Store M)
    (a : SKLTransformer) (X : List Row) (y : Option (List ℚ)) :
    Except SKErr (Store M × SKLTransformer) :=
  traPartialFit fitOneSup fitOneU isSup s
    { a with instanceRef := none, nFeaturesIn := none } X y

/-- `Creme2SKLTransformer.transform`: fitted/array/feature-count
checks, then `transform_one` per row. -/
def traTransform {M : Type} (transOne : M → Row → List ℚ) (s : Store M)
    (a : SKLTransformer) (X : List Row) : Except SKErr (List (List ℚ)) :=
  match a.instanceRef with
  | none => .error .notFitted
  | some r =>
    if checkArrayOk X then
      match a.nFeaturesIn with
      | some n =>
        if ncols X == n then .ok (X.map (transOne (s.get r)))
        else .error .badShape
      | none => .error .notFitted
    else .error .validation

/-- `Creme2SKLClusterer` state, including the per-fit `labels_`. -/
structure SKLClusterer where
  estimatorRef : Nat
  instanceRef : Option Nat
  nFeaturesIn : Option Nat
  labels : List ℤ

/-- The clusterer's fitting loop:
`label = self.instance_.fit_one(x).predict_one(x)` — each row's label
is predicted by the instance just updated with that row. -/
def cluLoop {M : Type} (fitOne : M → Row → M) (predOne : M → Row → ℤ) :
    M → List Row → M × List ℤ
  | m, [] => (m, [])
  | m, x :: t =>
    let m1 := fitOne m x
    let rest := cluLoop fitOne predOne m1 t
    (rest.1, predOne m1 x :: rest.2)

/-- `Creme2SKLClusterer._partial_fit`: `check_array`, feature-count
check, deep copy on first use, then the fit-and-label loop; `labels_`
is rebuilt from scratch on every call. -/
def cluPartialFit {M : Type} (fitOne : M → Row → M) (predOne : M → Row → ℤ)
    (s : Store M) (a : SKLClusterer) (X : List Row) :
    Except SKErr (Store M × SKLClusterer) :=
  if checkArrayOk X then
    if nFeatOk a.nFeaturesIn X then
      let er := ensureInstance s a.estimatorRef a.instanceRef
      let fl := cluLoop fitOne predOne (er.2.get er.1) X
      .ok (er.2.set er.1 fl.1,
        { a with
            instanceRef := some er.1
            nFeaturesIn := some (ncols X)
            labels := fl.2 })
    else .error .badShape
  else .error .validation

/-- `Creme2SKLClusterer.fit`: pop `instance_` and `n_features_in_`,
then one `_partial_fit` pass. -/
def cluFit {M : Type} (fitOne : M → Row → M) (predOne : M → Row → ℤ)
    (s : Store M) (a : SKLClusterer) (X : List Row) :
    Except SKErr (Store M × SKLClusterer) :=
  cluPartialFit fitOne predOne s
    { a with instanceRef := none, nFeaturesIn := none } X

/-- `Creme2SKLClusterer.predict`: `check_is_fitted` and `check_array`,
then `predict_one` per row.  Unlike the other three variants, the
source performs NO feature-count comparison here. -/
def cluPredict {M : Type} (predOne : M → Row → ℤ) (s : Store M)
    (a : SKLClusterer) (X : List Row) : Except SKErr (List ℤ) :=
  match a.instanceRef with
  | none => .error .notFitted
  | some r =>
    if checkArrayOk X then .ok (X.map (predOne (s.get r)))
    else .error .validation

lemma Store.get_set_self {M : Type} (s : Store M) (r : Nat) (v : M) :
    (s.set r v).get r = v := by
  simp [Store.get, Store.set]

lemma Store.get_set_other {M : Type} (s : Store M) (r q : Nat) (v : M)
    (h : q ≠ r) : (s.set r v).get q = s.get q := by
  simp [Store.get, Store.set, h]

lemma Store.get_alloc_self {M : Type} (s : Store M) (v : M) :
    (s.alloc v).2.get (s.alloc v).1 = v := by
  simp [Store.get, Store.alloc]

lemma ensureInstance_ref_ne {M : Type} (s : Store M) (est : Nat)
    (inst : Option Nat) (hest : est < s.next)
    (hinst : ∀ r, inst = some r → r ≠ est) :
    (ensureInstance s est inst).1 ≠ est := by
  cases inst with
  | none =>
    simp only [ensureInstance, Store.alloc]
    omega
  | some r => exact hinst r rfl

lemma ensureInstance_get_est {M : Type} (s : Store M) (est : Nat)
    (inst : Option Nat) (hest : est < s.next) :
    (ensureInstance s est inst).2.get est = s.get est := by
  cases inst with
  | none =>
    simp only [ensureInstance, Store.alloc, Store.get]
    rw [if_neg (by omega)]
  | some r => rfl

/-- After deep-copy-or-reuse and the in-place mutation of the instance
cell, the template cell is untouched. -/
lemma preserve_get {M : Type} (s : Store M) (est : Nat) (inst : Option Nat)
    (v : M) (hest : est < s.next) (hinst : ∀ r, inst = some r → r ≠ est) :
    ((ensureInstance s est inst).2.set (ensureInstance s est inst).1 v).get est
      = s.get est := by
  rw [Store.get_set_other _ _ _ _
    (fun h => ensureInstance_ref_ne s est inst hest hinst h.symm)]
  exact ensureInstance_get_est s est inst hest

lemma regPartialFit_preserves {M : Type} (fitOne : M → Row → ℚ → M)
    (s : Store M) (a : SKLRegressor) (X : List Row) (y : List ℚ)
    (hest : a.estimatorRef < s.next)
    (hinst : ∀ r, a.instanceRef = some r → r ≠ a.estimatorRef) :
    (storeAfter (regPartialFit fitOne s a X y) s).get a.estimatorRef
      = s.get a.estimatorRef := by
  unfold regPartialFit
  split
  · split
    · exact preserve_get s a.estimatorRef a.instanceRef _ hest hinst
    · rfl
  · rfl

lemma clsPartialFit_preserves {M : Type} (fitOne : M → Row → ℚ → M)
    (isMulti : Bool) (s : Store M) (a : SKLClassifier) (X : List Row)
    (y : List ℚ) (classes : Option (List ℚ))
    (hest : a.estimatorRef < s.next)
    (hinst : ∀ r, a.instanceRef = some r → r ≠ a.estimatorRef) :
    (storeAfter (clsPartialFit fitOne isMulti s a X y classes) s).get
        a.estimatorRef = s.get a.estimatorRef := by
  unfold clsPartialFit
  split
  · rfl
  · split
    · split
      · split
        · exact preserve_get s a.estimatorRef a.instanceRef _ hest hinst
        · rfl
      · rfl
    · rfl

lemma traPartialFit_preserves {M : Type} (fitOneSup : M → Row → Option ℚ → M)
    (fitOneU : M → Row → M) (isSup : Bool) (s : Store M) (a : SKLTransformer)
    (X : List Row) (y : Option (List ℚ)) (hest : a.estimatorRef < s.next)
    (hinst : ∀ r, a.instanceRef = some r → r ≠ a.estimatorRef) :
    (storeAfter (traPartialFit fitOneSup fitOneU isSup s a X y) s).get
        a.estimatorRef = s.get a.estimatorRef := by
  unfold traPartialFit
  split
  · split
    · exact preserve_get s a.estimatorRef a.instanceRef _ hest hinst
    · rfl
  · rfl

lemma cluPartialFit_preserves {M : Type} (fitOne : M → Row → M)
    (predOne : M → Row → ℤ) (s : Store M) (a : SKLClusterer) (X : List Row)
    (hest : a.estimatorRef < s.next)
    (hinst : ∀ r, a.instanceRef = some r → r ≠ a.estimatorRef) :
    (storeAfter (cluPartialFit fitOne predOne s a X) s).get a.estimatorRef
      = s.get a.estimatorRef := by
  unfold cluPartialFit
  split
  · split
    · exact preserve_get s a.estimatorRef a.instanceRef _ hest hinst
    · rfl
  · rfl

/-- C6: for every adapter variant, every wrapped estimator and every
input, `fit` and `partial_fit` leave the caller's template cell
untouched — learning writes only through the private deep copy's fresh
reference.  `hinst` is the adapter invariant that an existing
`instance_` reference is never the template's (it is always a fresh
allocation). -/
theorem C6_adapters_preserve_template {M : Type} (fitOneS : M → Row → ℚ → M)
    (fitOneSup : M → Row → Option ℚ → M) (fitOneU : M → Row → M)
    (predOneZ : M → Row → ℤ) (isMulti isSup : Bool) (s : Store M) (est : Nat)
    (inst : Option Nat) (nf : Option Nat) (cls : Option (List ℚ)) (lEnc : Bool)
    (labs : List ℤ) (X : List Row) (y : List ℚ) (yT : Option (List ℚ))
    (classes : Option (List ℚ)) (hest : est < s.next)
    (hinst : ∀ r, inst = some r → r ≠ est) :
    (storeAfter (regFit fitOneS s ⟨est, inst, nf⟩ X y) s).get est = s.get est ∧
    (storeAfter (regPartialFit fitOneS s ⟨est, inst, nf⟩ X y) s).get est
      = s.get est ∧
    (storeAfter (clsFit fitOneS isMulti s ⟨est, inst, nf, cls, lEnc⟩ X y)
      s).get est = s.get est ∧
    (storeAfter (clsPartialFit fitOneS isMulti s ⟨est, inst, nf, cls, lEnc⟩
      X y classes) s).get est = s.get est ∧
    (storeAfter (traFit fitOneSup fitOneU isSup s ⟨est, inst, nf⟩ X yT)
      s).get est = s.get est ∧
    (storeAfter (traPartialFit fitOneSup fitOneU isSup s ⟨est, inst, nf⟩ X yT)
      s).get est = s.get est ∧
    (storeAfter (cluFit fitOneU predOneZ s ⟨est, inst, nf, labs⟩ X) s).get est
      = s.get est ∧
    (storeAfter (cluPartialFit fitOneU predOneZ s ⟨est, inst, nf, labs⟩ X)
      s).get est = s.get est := by
  refine ⟨?_, ?_, ?_, ?_, ?_, ?_, ?_, ?_⟩
  · exact regPartialFit_preserves fitOneS s ⟨est, none, none⟩ X y hest
      (fun r h => nomatch h)
  · exact regPartialFit_preserves fitOneS s ⟨est, inst, nf⟩ X y hest hinst
  · exact clsPartialFit_preserves fitOneS isMulti s ⟨est, none, none, none,
      false⟩ X y (some (uniqueLabels y)) hest (fun r h => nomatch h)
  · exact clsPartialFit_preserves fitOneS isMulti s ⟨est, inst, nf, cls, lEnc⟩
      X y classes hest hinst
  · exact traPartialFit_preserves fitOneSup fitOneU isSup s ⟨est, none, none⟩
      X yT hest (fun r h => nomatch h)
  · exact traPartialFit_preserves fitOneSup fitOneU isSup s ⟨est, inst, nf⟩
      X yT hest hinst
  · exact cluPartialFit_preserves fitOneU predOneZ s ⟨est, none, none, labs⟩
      X hest (fun r h => nomatch h)
  · exact cluPartialFit_preserves fitOneU predOneZ s ⟨est, inst, nf, labs⟩
      X hest hinst

/-- C6 witness: a store of one cell holding the template value `5`; a
regressor-adapter `fit` over one row leaves cell `0` at `5`. -/
theorem C6_adapters_preserve_template_witness :
    (storeAfter (regFit (fun (m : ℚ) _ v => m + v) ⟨fun _ => 5, 1⟩
      ⟨0, none, none⟩ [[1]] [2]) ⟨fun _ => 5, 1⟩).get 0
      = Store.get (M := ℚ) ⟨fun _ => 5, 1⟩ 0 :=
  (C6_adapters_preserve_template (fun m _ v => m + v) (fun m _ _ => m)
    (fun m _ => m) (fun _ _ => 0) true false ⟨fun _ => 5, 1⟩ 0 none none
    none false [] [[1]] [2] none none (by decide)
    (fun r h => nomatch h)).1

/-- C8 counterexample: a clusterer adapter fitted on a two-column table
(`n_features_in_ = 2`) and then asked to predict on a THREE-column
table answers `.ok` instead of raising a shape error —
`Creme2SKLClusterer.predict` never compares `X.shape[1]` with
`n_features_in_`, so the original claim fails for the clusterer
variant. -/
theorem C8_clusterer_predict_skips_shape_check :
    (okOr (cluFit (fun (m : ℚ) _ => m) (fun _ _ => (7 : ℤ))
        ⟨fun _ => 0, 1⟩ ⟨0, none, none, []⟩ [[1, 2]])
      (⟨fun _ => 0, 1⟩, ⟨0, none, none, []⟩)).2.nFeaturesIn = some 2 ∧
    cluPredict (fun (_ : ℚ) _ => (7 : ℤ))
      (okOr (cluFit (fun (m : ℚ) _ => m) (fun _ _ => (7 : ℤ))
          ⟨fun _ => 0, 1⟩ ⟨0, none, none, []⟩ [[1, 2]])
        (⟨fun _ => 0, 1⟩, ⟨0, none, none, []⟩)).1
      (okOr (cluFit (fun (m : ℚ) _ => m) (fun _ _ => (7 : ℤ))
          ⟨fun _ => 0, 1⟩ ⟨0, none, none, []⟩ [[1, 2]])
        (⟨fun _ => 0, 1⟩, ⟨0, none, none, []⟩)).2 [[1, 2, 3]] = .ok [7] := by
  constructor <;> rfl

/-- C8 amended: every variant's inference call before any fit raises
the not-fitted error, and a fitted adapter queried with a different
column count raises the shape error for the classifier, regressor and
transformer variants; the clusterer's `predict` performs no
feature-count check and succeeds instead. -/
theorem C8_predict_error_checks {M : Type} (predOne : M → Row → ℚ)
    (transOne : M → Row → List ℚ) (predOneZ : M → Row → ℤ) (s : Store M)
    (est r n : Nat) (nf : Option Nat) (cls : Option (List ℚ)) (lEnc : Bool)
    (labs : List ℤ) (X X' : List Row) (hX : checkArrayOk X' = true)
    (hne : (ncols X' == n) = false) :
    regPredict predOne s ⟨est, none, nf⟩ X = .error .notFitted ∧
    clsPredict predOne s ⟨est, none, nf, cls, lEnc⟩ X = .error .notFitted ∧
    traTransform transOne s ⟨est, none, nf⟩ X = .error .notFitted ∧
    cluPredict predOneZ s ⟨est, none, nf, labs⟩ X = .error .notFitted ∧
    regPredict predOne s ⟨est, some r, some n⟩ X' = .error .badShape ∧
    clsPredict predOne s ⟨est, some r, some n, cls, lEnc⟩ X' = .error .badShape ∧
    traTransform transOne s ⟨est, some r, some n⟩ X' = .error .badShape ∧
    cluPredict predOneZ s ⟨est, some r, some n, labs⟩ X'
      = .ok (X'.map (predOneZ (s.get r))) := by
  refine ⟨rfl, rfl, rfl, rfl, ?_, ?_, ?_, ?_⟩
  · simp [regPredict, hX, hne]
  · simp [clsPredict, hX, hne]
  · simp [traTransform, hX, hne]
  · simp [cluPredict, hX]

/-- C8 witness: with one fitted feature and a two-column query, the
regressor adapter raises the shape error (and the other conjuncts hold
at the same concrete inputs). -/
theorem C8_predict_error_checks_witness :
    regPredict (fun (m : ℚ) _ => m) ⟨fun _ => 0, 1⟩ ⟨0, some 0, some 1⟩
      [[1, 2]] = .error .badShape :=
  (C8_predict_error_checks (fun m _ => m) (fun _ _ => []) (fun _ _ => 0)
    (⟨fun _ => 0, 1⟩ : Store ℚ) 0 0 1 none none false [] [[1]] [[1, 2]]
    (by rfl) (by rfl)).2.2.2.2.1

/-- Entry `i` of the clusterer loop's label list: the prediction of the
model state that has absorbed exactly rows `0..i`. -/
lemma cluLoop_labels {M : Type} (fitOne : M → Row → M)
    (predOne : M → Row → ℤ) (m : M) (X : List Row) (i : Nat)
    (hi : i < X.length) :
    (cluLoop fitOne predOne m X).2.getD i 0
      = predOne ((X.take (i + 1)).foldl fitOne m) (X.getD i []) := by
  induction X generalizing m i with
  | nil => simp at hi
  | cons x t ih =>
    cases i with
    | zero => simp [cluLoop]
    | succ j =>
      simp only [cluLoop, List.getD_cons_succ, List.take_succ_cons,
        List.foldl_cons]
      exact ih (fitOne m x) j (by simpa using hi)

lemma cluLoop_length {M : Type} (fitOne : M → Row → M)
    (predOne : M → Row → ℤ) (m : M) (X : List Row) :
    (cluLoop fitOne predOne m X).2.length = X.length := by
  induction X generalizing m with
  | nil => rfl
  | cons x t ih => simp [cluLoop, ih]

/-- C9: the clusterer adapter's `fit` computes row `i`'s label with
`fit_one(x).predict_one(x)` on the same just-updated instance: the
recorded label equals the prediction of the model state that has seen
exactly rows `0..i` (a fold over `X.take (i+1)` from the deep-copied
template), not the state after the full pass. -/
theorem C9_clusterer_online_labels {M : Type} (fitOne : M → Row → M)
    (predOne : M → Row → ℤ) (s : Store M) (a : SKLClusterer) (X : List Row)
    (hX : checkArrayOk X = true) (i : Nat) (hi : i < X.length) :
    ∃ p, cluFit fitOne predOne s a X = .ok p ∧
      p.2.labels.length = X.length ∧
      p.2.labels.getD i 0
        = predOne ((X.take (i + 1)).foldl fitOne (s.get a.estimatorRef))
            (X.getD i []) := by
  have hfit : cluFit fitOne predOne s a X = .ok
      ((ensureInstance s a.estimatorRef none).2.set
         (ensureInstance s a.estimatorRef none).1
         (cluLoop fitOne predOne
           ((ensureInstance s a.estimatorRef none).2.get
             (ensureInstance s a.estimatorRef none).1) X).1,
       ⟨a.estimatorRef, some (ensureInstance s a.estimatorRef none).1,
         some (ncols X),
         (cluLoop fitOne predOne
           ((ensureInstance s a.estimatorRef none).2.get
             (ensureInstance s a.estimatorRef none).1) X).2⟩) := by
    unfold cluFit cluPartialFit
    simp only [hX, nFeatOk, if_true]
  refine ⟨_, hfit, ?_, ?_⟩
  · exact cluLoop_length fitOne predOne _ X
  · rw [show ((ensureInstance s a.estimatorRef none).2.get
        (ensureInstance s a.estimatorRef none).1) = s.get a.estimatorRef from
      Store.get_alloc_self s _]
    exact cluLoop_labels fitOne predOne _ X i hi

/-- C9 witness: a clusterer that counts the samples absorbed so far and
predicts that count: over two rows the labels are `[1, 2]`, row `1`'s
label being the count after two rows, as the online formula states. -/
theorem C9_clusterer_online_labels_witness :
    ∃ p, cluFit (fun (m : ℚ) _ => m + 1) (fun m _ => ⌊m⌋)
        ⟨fun _ => 0, 1⟩ ⟨0, none, none, []⟩ [[1], [2]] = .ok p ∧
      p.2.labels.length = ([[1], [2]] : List Row).length ∧
      p.2.labels.getD 1 0
        = (fun (m : ℚ) _ => ⌊m⌋)
            ((([[1], [2]] : List Row).take 2).foldl (fun m _ => m + 1)
              (Store.get (M := ℚ) ⟨fun _ => 0, 1⟩ 0))
            (([[1], [2]] : List Row).getD 1 []) :=
  C9_clusterer_online_labels (fun m _ => m + 1) (fun m _ => ⌊m⌋)
    ⟨fun _ => 0, 1⟩ ⟨0, none, none, []⟩ [[1], [2]] (by rfl) 1 (by decide)

lemma mem_uniqueLabels (a : ℚ) (y : List ℚ) (h : a ∈ y) :
    a ∈ uniqueLabels y := by
  rw [uniqueLabels, mem_sortList, mem_firstUniq]
  exact h

lemma subset_uniqueLabels_twice (y : List ℚ) :
    y.all (fun v => decide (v ∈ uniqueLabels (uniqueLabels y))) = true := by
  rw [List.all_eq_true]
  intro v hv
  rw [decide_eq_true_eq]
  exact mem_uniqueLabels _ _ (mem_uniqueLabels _ _ hv)

/-- A successful `Creme2SKLClassifier._partial_fit`: the validated call
deep-copies the template when no instance exists, streams the (encoded)
rows into the instance cell, and records `classes_`,
`n_features_in_` and the label codec. -/
lemma clsPartialFit_ok {M : Type} (fitOne : M → Row → ℚ → M) (isMulti : Bool)
    (s : Store M) (a : SKLClassifier) (X : List Row) (y : List ℚ)
    (classes : Option (List ℚ)) (cs : List ℚ)
    (hcs : checkFirstCall a classes = .ok cs)
    (hxy : checkXyOk X y = true)
    (hnf : nFeatOk a.nFeaturesIn X = true)
    (hsub : y.all (fun v => decide (v ∈ cs)) = true) :
    clsPartialFit fitOne isMulti s a X y classes = .ok
      ((ensureInstance s a.estimatorRef a.instanceRef).2.set
        (ensureInstance s a.estimatorRef a.instanceRef).1
        ((X.zip (encY isMulti cs y)).foldl (fun m p => fitOne m p.1 p.2)
          ((ensureInstance s a.estimatorRef a.instanceRef).2.get
            (ensureInstance s a.estimatorRef a.instanceRef).1)),
       ⟨a.estimatorRef, some (ensureInstance s a.estimatorRef a.instanceRef).1,
        some (ncols X), some cs, a.labelEnc || !isMulti⟩) := by
  unfold clsPartialFit
  rw [hcs]
  simp only [hxy, hnf, hsub, if_true]

lemma ensureInstance_none_get {M : Type} (s : Store M) (est : Nat) :
    (ensureInstance s est none).2.get (ensureInstance s est none).1
      = s.get est :=
  Store.get_alloc_self s _

lemma checkArrayOk_of_xy (X : List Row) (y : List ℚ)
    (h : checkXyOk X y = true) : checkArrayOk X = true := by
  rw [checkXyOk, Bool.and_eq_true] at h
  exact h.1

/-- A successful `Creme2SKLRegressor._partial_fit`. -/
lemma regPartialFit_ok {M : Type} (fitOne : M → Row → ℚ → M) (s : Store M)
    (a : SKLRegressor) (X : List Row) (y : List ℚ)
    (hxy : checkXyOk X y = true) (hnf : nFeatOk a.nFeaturesIn X = true) :
    regPartialFit fitOne s a X y = .ok
      ((ensureInstance s a.estimatorRef a.instanceRef).2.set
        (ensureInstance s a.estimatorRef a.instanceRef).1
        ((X.zip y).foldl (fun m p => fitOne m p.1 p.2)
          ((ensureInstance s a.estimatorRef a.instanceRef).2.get
            (ensureInstance s a.estimatorRef a.instanceRef).1)),
       ⟨a.estimatorRef, some (ensureInstance s a.estimatorRef a.instanceRef).1,
        some (ncols X)⟩) := by
  unfold regPartialFit
  simp only [hxy, hnf, if_true]

/-- A successful `Creme2SKLTransformer._partial_fit` with a target
column supplied. -/
lemma traPartialFit_ok_some {M : Type} (fitOneSup : M → Row → Option ℚ → M)
    (fitOneU : M → Row → M) (isSup : Bool) (s : Store M) (a : SKLTransformer)
    (X : List Row) (ys : List ℚ) (hxy : checkXyOk X ys = true)
    (hnf : nFeatOk a.nFeaturesIn X = true) :
    traPartialFit fitOneSup fitOneU isSup s a X (some ys) = .ok
      ((ensureInstance s a.estimatorRef a.instanceRef).2.set
        (ensureInstance s a.estimatorRef a.instanceRef).1
        (if isSup then
          (X.zip (ys.map some)).foldl (fun m p => fitOneSup m p.1 p.2)
            ((ensureInstance s a.estimatorRef a.instanceRef).2.get
              (ensureInstance s a.estimatorRef a.instanceRef).1)
        else
          X.foldl fitOneU
            ((ensureInstance s a.estimatorRef a.instanceRef).2.get
              (ensureInstance s a.estimatorRef a.instanceRef).1)),
       ⟨a.estimatorRef, some (ensureInstance s a.estimatorRef a.instanceRef).1,
        some (ncols X)⟩) := by
  unfold traPartialFit
  simp only [hxy, hnf, if_true]

/-- A successful `Creme2SKLClusterer._partial_fit`. -/
lemma cluPartialFit_ok {M : Type} (fitOne : M → Row → M)
    (predOne : M → Row → ℤ) (s : Store M) (a : SKLClusterer) (X : List Row)
    (hX : checkArrayOk X = true) (hnf : nFeatOk a.nFeaturesIn X = true) :
    cluPartialFit fitOne predOne s a X = .ok
      ((ensureInstance s a.estimatorRef a.instanceRef).2.set
        (ensureInstance s a.estimatorRef a.instanceRef).1
        (cluLoop fitOne predOne
          ((ensureInstance s a.estimatorRef a.instanceRef).2.get
            (ensureInstance s a.estimatorRef a.instanceRef).1) X).1,
       ⟨a.estimatorRef, some (ensureInstance s a.estimatorRef a.instanceRef).1,
        some (ncols X),
        (cluLoop fitOne predOne
          ((ensureInstance s a.estimatorRef a.instanceRef).2.get
            (ensureInstance s a.estimatorRef a.instanceRef).1) X).2⟩) := by
  unfold cluPartialFit
  simp only [hX, hnf, if_true]

/-- The model component of the clusterer loop is the plain fold of
`fit_one` over the rows. -/
lemma cluLoop_model {M : Type} (fitOne : M → Row → M) (predOne : M → Row → ℤ)
    (m : M) (X : List Row) :
    (cluLoop fitOne predOne m X).1 = X.foldl fitOne m := by
  induction X generalizing m with
  | nil => rfl
  | cons x t ih => simp [cluLoop, ih]

/-- A first-fit store (fresh copy written once) read back at the
template reference. -/
lemma fresh_set_get {M : Type} (s : Store M) (est : Nat) (v : M)
    (hest : est < s.next) :
    (((ensureInstance s est none).2.set
      (ensureInstance s est none).1 v)).get est = s.get est :=
  preserve_get s est none v hest (fun _ h => nomatch h)

/-- Reusing an existing instance reference allocates nothing. -/
lemma ensureInstance_some {M : Type} (s : Store M) (est r : Nat) :
    ensureInstance s est (some r) = (r, s) :=
  rfl

/-- C7, for every adapter variant: a second `fit` discards all
adapter-owned state — after `fit X1 y1; fit X2 y2` the feature count is
that of `X2` alone (even when `X2`'s column count differs from `X1`'s,
since `fit` pops `n_features_in_`), and the wrapped-instance value,
class set and label codec equal those of a single `fit X2 y2` from the
fresh adapter — while two `partial_fit` calls accumulate: after
`partial_fit X1 y1; partial_fit X3 y3` (the second batch matching the
fitted width, as `partial_fit` requires) the instance value is the fold
of the wrapped `fit_one` over both batches concatenated, so e.g. the
wrapped instance's class counts sum over both calls. -/
theorem C7_fit_resets_partial_fit_accumulates {M : Type}
    (fitOne : M → Row → ℚ → M) (fitOneSup : M → Row → Option ℚ → M)
    (fitOneU : M → Row → M) (predOneZ : M → Row → ℤ) (isMulti isSup : Bool)
    (s : Store M) (est : Nat) (X1 X2 X3 : List Row) (y1 y2 y3 : List ℚ)
    (cl : List ℚ) (hest : est < s.next)
    (h1 : checkXyOk X1 y1 = true) (h2 : checkXyOk X2 y2 = true)
    (h3 : checkXyOk X3 y3 = true) (hn : ncols X3 = ncols X1)
    (hs1 : y1.all (fun v => decide (v ∈ uniqueLabels cl)) = true)
    (hs3 : y3.all (fun v => decide (v ∈ uniqueLabels cl)) = true) :
    (∃ p1 p2 q2,
      regFit fitOne s ⟨est, none, none⟩ X1 y1 = .ok p1 ∧
      regFit fitOne p1.1 p1.2 X2 y2 = .ok p2 ∧
      regFit fitOne s ⟨est, none, none⟩ X2 y2 = .ok q2 ∧
      p2.2.nFeaturesIn = some (ncols X2) ∧
      p2.2.nFeaturesIn = q2.2.nFeaturesIn ∧
      p2.1.get (p2.2.instanceRef.getD 0)
        = q2.1.get (q2.2.instanceRef.getD 0)) ∧
    (∃ p1 p2,
      regPartialFit fitOne s ⟨est, none, none⟩ X1 y1 = .ok p1 ∧
      regPartialFit fitOne p1.1 p1.2 X3 y3 = .ok p2 ∧
      p2.1.get (p2.2.instanceRef.getD 0)
        = ((X1.zip y1) ++ (X3.zip y3)).foldl
          (fun m p => fitOne m p.1 p.2) (s.get est)) ∧
    (∃ p1 p2 q2,
      clsFit fitOne isMulti s (clsFresh est) X1 y1 = .ok p1 ∧
      clsFit fitOne isMulti p1.1 p1.2 X2 y2 = .ok p2 ∧
      clsFit fitOne isMulti s (clsFresh est) X2 y2 = .ok q2 ∧
      p2.2.nFeaturesIn = some (ncols X2) ∧
      p2.2.nFeaturesIn = q2.2.nFeaturesIn ∧
      p2.2.classes = q2.2.classes ∧
      p2.2.labelEnc = q2.2.labelEnc ∧
      p2.1.get (p2.2.instanceRef.getD 0)
        = q2.1.get (q2.2.instanceRef.getD 0)) ∧
    (∃ p1 p2,
      clsPartialFit fitOne isMulti s (clsFresh est) X1 y1 (some cl)
        = .ok p1 ∧
      clsPartialFit fitOne isMulti p1.1 p1.2 X3 y3 none = .ok p2 ∧
      p2.1.get (p2.2.instanceRef.getD 0)
        = ((X1.zip (encY isMulti (uniqueLabels cl) y1))
            ++ (X3.zip (encY isMulti (uniqueLabels cl) y3))).foldl
          (fun m p => fitOne m p.1 p.2) (s.get est)) ∧
    (∃ p1 p2 q2,
      traFit fitOneSup fitOneU isSup s ⟨est, none, none⟩ X1 (some y1)
        = .ok p1 ∧
      traFit fitOneSup fitOneU isSup p1.1 p1.2 X2 (some y2) = .ok p2 ∧
      traFit fitOneSup fitOneU isSup s ⟨est, none, none⟩ X2 (some y2)
        = .ok q2 ∧
      p2.2.nFeaturesIn = some (ncols X2) ∧
      p2.2.nFeaturesIn = q2.2.nFeaturesIn ∧
      p2.1.get (p2.2.instanceRef.getD 0)
        = q2.1.get (q2.2.instanceRef.getD 0)) ∧
    (∃ p1 p2,
      traPartialFit fitOneSup fitOneU isSup s ⟨est, none, none⟩ X1 (some y1)
        = .ok p1 ∧
      traPartialFit fitOneSup fitOneU isSup p1.1 p1.2 X3 (some y3)
        = .ok p2 ∧
      p2.1.get (p2.2.instanceRef.getD 0)
        = (if isSup then
            ((X1.zip (y1.map some)) ++ (X3.zip (y3.map some))).foldl
              (fun m p => fitOneSup m p.1 p.2) (s.get est)
          else (X1 ++ X3).foldl fitOneU (s.get est))) ∧
    (∃ p1 p2 q2,
      cluFit fitOneU predOneZ s ⟨est, none, none, []⟩ X1 = .ok p1 ∧
      cluFit fitOneU predOneZ p1.1 p1.2 X2 = .ok p2 ∧
      cluFit fitOneU predOneZ s ⟨est, none, none, []⟩ X2 = .ok q2 ∧
      p2.2.nFeaturesIn = some (ncols X2) ∧
      p2.2.nFeaturesIn = q2.2.nFeaturesIn ∧
      p2.1.get (p2.2.instanceRef.getD 0)
        = q2.1.get (q2.2.instanceRef.getD 0)) ∧
    (∃ p1 p2,
      cluPartialFit fitOneU predOneZ s ⟨est, none, none, []⟩ X1 = .ok p1 ∧
      cluPartialFit fitOneU predOneZ p1.1 p1.2 X3 = .ok p2 ∧
      p2.1.get (p2.2.instanceRef.getD 0)
        = (X1 ++ X3).foldl fitOneU (s.get est)) := by
  refine ⟨?_, ?_, ?_, ?_, ?_, ?_, ?_, ?_⟩
  · have hf1 := regPartialFit_ok fitOne s ⟨est, none, none⟩ X1 y1 h1 rfl
    have hf2 := regPartialFit_ok fitOne
      ((ensureInstance s est (none : Option Nat)).2.set
        (ensureInstance s est (none : Option Nat)).1
        ((X1.zip y1).foldl (fun m p => fitOne m p.1 p.2)
          ((ensureInstance s est (none : Option Nat)).2.get
            (ensureInstance s est (none : Option Nat)).1)))
      ⟨est, none, none⟩ X2 y2 h2 rfl
    have hf3 := regPartialFit_ok fitOne s ⟨est, none, none⟩ X2 y2 h2 rfl
    refine ⟨_, _, _, hf1, hf2, hf3, rfl, rfl, ?_⟩
    simp only [Option.getD_some, Store.get_set_self, ensureInstance_none_get]
    refine congrArg
      (fun m => (X2.zip y2).foldl (fun m p => fitOne m p.1 p.2) m) ?_
    exact fresh_set_get s est _ hest
  · have hq1 := regPartialFit_ok fitOne s ⟨est, none, none⟩ X1 y1 h1 rfl
    have hq2 := regPartialFit_ok fitOne
      ((ensureInstance s est (none : Option Nat)).2.set
        (ensureInstance s est (none : Option Nat)).1
        ((X1.zip y1).foldl (fun m p => fitOne m p.1 p.2)
          ((ensureInstance s est (none : Option Nat)).2.get
            (ensureInstance s est (none : Option Nat)).1)))
      ⟨est, some (ensureInstance s est (none : Option Nat)).1,
        some (ncols X1)⟩ X3 y3 h3 (by simp [nFeatOk, hn])
    refine ⟨_, _, hq1, hq2, ?_⟩
    simp only [Option.getD_some, ensureInstance_some, Store.get_set_self,
      ensureInstance_none_get, List.foldl_append]
  · have hfit1 := clsPartialFit_ok fitOne isMulti s
      ⟨est, none, none, none, false⟩ X1 y1 (some (uniqueLabels y1))
      (uniqueLabels (uniqueLabels y1)) rfl h1 rfl
      (subset_uniqueLabels_twice y1)
    have hfit2 := clsPartialFit_ok fitOne isMulti
      ((ensureInstance s est (none : Option Nat)).2.set
        (ensureInstance s est (none : Option Nat)).1
        ((X1.zip (encY isMulti (uniqueLabels (uniqueLabels y1)) y1)).foldl
          (fun m p => fitOne m p.1 p.2)
          ((ensureInstance s est (none : Option Nat)).2.get
            (ensureInstance s est (none : Option Nat)).1)))
      ⟨est, none, none, none, false⟩ X2 y2 (some (uniqueLabels y2))
      (uniqueLabels (uniqueLabels y2)) rfl h2 rfl
      (subset_uniqueLabels_twice y2)
    have hfit3 := clsPartialFit_ok fitOne isMulti s
      ⟨est, none, none, none, false⟩ X2 y2 (some (uniqueLabels y2))
      (uniqueLabels (uniqueLabels y2)) rfl h2 rfl
      (subset_uniqueLabels_twice y2)
    refine ⟨_, _, _, hfit1, hfit2, hfit3, rfl, rfl, rfl, rfl, ?_⟩
    simp only [Option.getD_some, Store.get_set_self, ensureInstance_none_get]
    refine congrArg (fun m =>
      (X2.zip (encY isMulti (uniqueLabels (uniqueLabels y2)) y2)).foldl
        (fun m p => fitOne m p.1 p.2) m) ?_
    exact fresh_set_get s est _ hest
  · have hq1 := clsPartialFit_ok fitOne isMulti s
      ⟨est, none, none, none, false⟩ X1 y1 (some cl) (uniqueLabels cl) rfl h1
      rfl hs1
    have hq2 := clsPartialFit_ok fitOne isMulti
      ((ensureInstance s est (none : Option Nat)).2.set
        (ensureInstance s est (none : Option Nat)).1
        ((X1.zip (encY isMulti (uniqueLabels cl) y1)).foldl
          (fun m p => fitOne m p.1 p.2)
          ((ensureInstance s est (none : Option Nat)).2.get
            (ensureInstance s est (none : Option Nat)).1)))
      ⟨est, some (ensureInstance s est (none : Option Nat)).1,
        some (ncols X1), some (uniqueLabels cl), false || !isMulti⟩ X3 y3
      none (uniqueLabels cl) rfl h3 (by simp [nFeatOk, hn]) hs3
    refine ⟨_, _, hq1, hq2, ?_⟩
    simp only [Option.getD_some, ensureInstance_some, Store.get_set_self,
      ensureInstance_none_get, List.foldl_append]
  · have hf1 := traPartialFit_ok_some fitOneSup fitOneU isSup s
      ⟨est, none, none⟩ X1 y1 h1 rfl
    have hf2 := traPartialFit_ok_some fitOneSup fitOneU isSup
      ((ensureInstance s est (none : Option Nat)).2.set
        (ensureInstance s est (none : Option Nat)).1
        (if isSup then
          (X1.zip (y1.map some)).foldl (fun m p => fitOneSup m p.1 p.2)
            ((ensureInstance s est (none : Option Nat)).2.get
              (ensureInstance s est (none : Option Nat)).1)
        else
          X1.foldl fitOneU
            ((ensureInstance s est (none : Option Nat)).2.get
              (ensureInstance s est (none : Option Nat)).1)))
      ⟨est, none, none⟩ X2 y2 h2 rfl
    have hf3 := traPartialFit_ok_some fitOneSup fitOneU isSup s
      ⟨est, none, none⟩ X2 y2 h2 rfl
    refine ⟨_, _, _, hf1, hf2, hf3, rfl, rfl, ?_⟩
    simp only [Option.getD_some, Store.get_set_self, ensureInstance_none_get]
    refine congrArg (fun m =>
      if isSup then
        (X2.zip (y2.map some)).foldl (fun m p => fitOneSup m p.1 p.2) m
      else X2.foldl fitOneU m) ?_
    exact fresh_set_get s est _ hest
  · have hq1 := traPartialFit_ok_some fitOneSup fitOneU isSup s
      ⟨est, none, none⟩ X1 y1 h1 rfl
    have hq2 := traPartialFit_ok_some fitOneSup fitOneU isSup
      ((ensureInstance s est (none : Option Nat)).2.set
        (ensureInstance s est (none : Option Nat)).1
        (if isSup then
          (X1.zip (y1.map some)).foldl (fun m p => fitOneSup m p.1 p.2)
            ((ensureInstance s est (none : Option Nat)).2.get
              (ensureInstance s est (none : Option Nat)).1)
        else
          X1.foldl fitOneU
            ((ensureInstance s est (none : Option Nat)).2.get
              (ensureInstance s est (none : Option Nat)).1)))
      ⟨est, some (ensureInstance s est (none : Option Nat)).1,
        some (ncols X1)⟩ X3 y3 h3 (by simp [nFeatOk, hn])
    refine ⟨_, _, hq1, hq2, ?_⟩
    cases isSup with
    | true =>
      simp only [Option.getD_some, ensureInstance_some, Store.get_set_self,
        ensureInstance_none_get, List.foldl_append, if_true]
    | false =>
      simp only [Option.getD_some, ensureInstance_some, Store.get_set_self,
        ensureInstance_none_get, List.foldl_append, Bool.false_eq_true,
        if_false]
  · have hf1 := cluPartialFit_ok fitOneU predOneZ s ⟨est, none, none, []⟩ X1
      (checkArrayOk_of_xy X1 y1 h1) rfl
    have hf2 := cluPartialFit_ok fitOneU predOneZ
      ((ensureInstance s est (none : Option Nat)).2.set
        (ensureInstance s est (none : Option Nat)).1
        (cluLoop fitOneU predOneZ
          ((ensureInstance s est (none : Option Nat)).2.get
            (ensureInstance s est (none : Option Nat)).1) X1).1)
      ⟨est, none, none,
        (cluLoop fitOneU predOneZ
          ((ensureInstance s est (none : Option Nat)).2.get
            (ensureInstance s est (none : Option Nat)).1) X1).2⟩ X2
      (checkArrayOk_of_xy X2 y2 h2) rfl
    have hf3 := cluPartialFit_ok fitOneU predOneZ s ⟨est, none, none, []⟩ X2
      (checkArrayOk_of_xy X2 y2 h2) rfl
    refine ⟨_, _, _, hf1, hf2, hf3, rfl, rfl, ?_⟩
    simp only [Option.getD_some, Store.get_set_self, ensureInstance_none_get,
      cluLoop_model]
    refine congrArg (fun m => X2.foldl fitOneU m) ?_
    exact fresh_set_get s est _ hest
  · have hq1 := cluPartialFit_ok fitOneU predOneZ s ⟨est, none, none, []⟩ X1
      (checkArrayOk_of_xy X1 y1 h1) rfl
    have hq2 := cluPartialFit_ok fitOneU predOneZ
      ((ensureInstance s est (none : Option Nat)).2.set
        (ensureInstance s est (none : Option Nat)).1
        (cluLoop fitOneU predOneZ
          ((ensureInstance s est (none : Option Nat)).2.get
            (ensureInstance s est (none : Option Nat)).1) X1).1)
      ⟨est, some (ensureInstance s est (none : Option Nat)).1,
        some (ncols X1),
        (cluLoop fitOneU predOneZ
          ((ensureInstance s est (none : Option Nat)).2.get
            (ensureInstance s est (none : Option Nat)).1) X1).2⟩ X3
      (checkArrayOk_of_xy X3 y3 h3) (by simp [nFeatOk, hn])
    refine ⟨_, _, hq1, hq2, ?_⟩
    simp only [Option.getD_some, ensureInstance_some, Store.get_set_self,
      ensureInstance_none_get, cluLoop_model, List.foldl_append]

/-- C7 witness: concrete wrapped estimators over a one-cell heap; the
regressor-adapter conjunct at a first fit of one column and a second
fit of TWO columns — the re-fit with a different width succeeds and
its state reflects the second call alone. -/
theorem C7_fit_resets_partial_fit_accumulates_witness :
    ∃ p1 p2 q2,
      regFit (fun (m : ℚ) _ v => m + v + 1) ⟨fun _ => 0, 1⟩ ⟨0, none, none⟩
        [[1]] [0] = .ok p1 ∧
      regFit (fun (m : ℚ) _ v => m + v + 1) p1.1 p1.2 [[2, 3]] [1]
        = .ok p2 ∧
      regFit (fun (m : ℚ) _ v => m + v + 1) ⟨fun _ => 0, 1⟩ ⟨0, none, none⟩
        [[2, 3]] [1] = .ok q2 ∧
      p2.2.nFeaturesIn = some (ncols [[2, 3]]) ∧
      p2.2.nFeaturesIn = q2.2.nFeaturesIn ∧
      p2.1.get (p2.2.instanceRef.getD 0)
        = q2.1.get (q2.2.instanceRef.getD 0) :=
  (C7_fit_resets_partial_fit_accumulates (fun m _ v => m + v + 1)
    (fun m _ _ => m + 1) (fun m _ => m + 1) (fun _ _ => 0) true false
    ⟨fun _ => 0, 1⟩ 0 [[1]] [[2, 3]] [[4]] [0] [1] [1] [0, 1] (by decide)
    (by rfl) (by rfl) (by rfl) rfl (by rfl) (by rfl)).1

end RiverSpec
